import Mathlib

/-!
Verification development for the core of a BRC-20-style token indexer
(crate `ord`, modules `protocol::brc20::{balance, tracker, types, error}`
and `protocol::{error, handler}`).

The Rust code is embedded shallowly:
* `u128` amounts become `Nat` together with explicit checked arithmetic
  (`checked_add` / `checked_sub`) that fails exactly when the Rust
  128-bit operation would return `None`;
* the three redb tables owned by `Tracker` become association lists inside
  a `Store` record; `insert` is an upsert (`ainsert`), `get` is `alookup`,
  `remove` is `aremove`;
* fallible Rust methods returning `Result<_, Error>` become functions into
  `Except Error _`; in-place mutation becomes returning the new value, and
  the write order of the source (mutate all in-memory copies first, persist
  at the end) is translated literally;
* the `.unwrap()` inside `Tracker::get_token_balance` (which aborts when the
  token row is absent) is modelled by an outer `Option`: `none` is the abort.
-/

/-- Largest value of the Rust `u128` type. -/
def U128_MAX : Nat := 2 ^ 128 - 1

/-- Model of `u128::checked_add`: `none` exactly when the mathematical sum exceeds `U128_MAX`. -/
def checked_add (a b : Nat) : Option Nat :=
  if a + b ≤ U128_MAX then some (a + b) else none

/-- Model of `u128::checked_sub`: `none` exactly when the subtrahend exceeds the minuend. -/
def checked_sub (a b : Nat) : Option Nat :=
  if b ≤ a then some (a - b) else none

/-- Model of `protocol::brc20::types::Protocol`: enumerated protocol tag. -/
inductive Protocol where
  | BRC20
deriving DecidableEq, Repr

/-- Model of `protocol::brc20::types::TokenId`: protocol tag plus tick string. -/
structure TokenId where
  protocol : Protocol
  tick : String
deriving DecidableEq, Repr

/-- Model of `protocol::brc20::error::Error` (the redb `Storage` variant is omitted:
the store layer is modelled as pure maps, so storage I/O cannot fail). -/
inductive Error where
  | TransferExceedingTotalBalance
  | InvalidAvailableBalance
  | ExceedsMaxBalance
  | BalanceOverflow
  | BalanceUnderflow
  | TokenNotExists (t : TokenId)
  | DuplicatedTokenDeployment (t : TokenId)
  | InvalidTickLength
  | InvalidBalance
  | UnknownProtocol
  | InvalidInscriptionPayload
deriving DecidableEq, Repr

/-- Model of `protocol::brc20::balance::Balance` (field order as in the source). -/
structure Balance where
  transferable_balance : Nat
  total_balance : Nat
  max : Option Nat
deriving DecidableEq, Repr

/-- Model of `Balance::new(max)`. -/
def Balance.new (m : Option Nat) : Balance :=
  { transferable_balance := 0, total_balance := 0, max := m }

/-- Model of `Balance::ensure_below_max`. -/
def Balance.ensure_below_max (b : Balance) (balance : Nat) : Except Error Unit :=
  match b.max with
  | some m => if m < balance then Except.error Error.ExceedsMaxBalance else Except.ok ()
  | none => Except.ok ()

/-- Model of `Balance::ensure_can_transfer`: fails iff `total_balance < amt`. -/
def Balance.ensure_can_transfer (b : Balance) (amt : Nat) : Except Error Unit :=
  if b.total_balance < amt then Except.error Error.TransferExceedingTotalBalance
  else Except.ok ()

/-- Model of `Balance::ensure_transfer_valid`: fails iff `transferable_balance > total_balance`. -/
def Balance.ensure_transfer_valid (b : Balance) : Except Error Unit :=
  if b.total_balance < b.transferable_balance then Except.error Error.InvalidAvailableBalance
  else Except.ok ()

/-- Model of `Balance::decr_total`. -/
def Balance.decr_total (b : Balance) (amt : Nat) : Except Error Balance :=
  match checked_sub b.total_balance amt with
  | none => Except.error Error.BalanceUnderflow
  | some new_balance => Except.ok { b with total_balance := new_balance }

/-- Model of `Balance::decr_transferable`: check against `total_balance` first, then
subtract from `transferable_balance`, then the I1 postcondition check. -/
def Balance.decr_transferable (b : Balance) (amt : Nat) : Except Error Balance :=
  match b.ensure_can_transfer amt with
  | Except.error e => Except.error e
  | Except.ok _ =>
    match checked_sub b.transferable_balance amt with
    | none => Except.error Error.BalanceUnderflow
    | some new_balance =>
      match Balance.ensure_transfer_valid { b with transferable_balance := new_balance } with
      | Except.error e => Except.error e
      | Except.ok _ => Except.ok { b with transferable_balance := new_balance }

/-- Model of `Balance::incr_transferable` (the source maps the overflow case to
`BalanceUnderflow`, reproduced faithfully here). -/
def Balance.incr_transferable (b : Balance) (amt : Nat) : Except Error Balance :=
  match checked_add b.transferable_balance amt with
  | none => Except.error Error.BalanceUnderflow
  | some new_balance =>
    match b.ensure_below_max new_balance with
    | Except.error e => Except.error e
    | Except.ok _ =>
      match Balance.ensure_transfer_valid { b with transferable_balance := new_balance } with
      | Except.error e => Except.error e
      | Except.ok _ => Except.ok { b with transferable_balance := new_balance }

/-- Model of `Balance::incr_total`. -/
def Balance.incr_total (b : Balance) (amt : Nat) : Except Error Balance :=
  match checked_add b.total_balance amt with
  | none => Except.error Error.BalanceOverflow
  | some new_balance =>
    match b.ensure_below_max new_balance with
    | Except.error e => Except.error e
    | Except.ok _ => Except.ok { b with total_balance := new_balance }

/-- Model of `protocol::brc20::storage::UserBalanceKey`: key of the user-balance table. -/
structure UserBalanceKey where
  token : TokenId
  owner : String
deriving DecidableEq, Repr

/-- An inscription id `<txid>i<index>`. -/
structure InscriptionId where
  txid : String
  index : Nat
deriving DecidableEq, Repr

/-- Model of `protocol::brc20::types::Deploy` payload. -/
structure Deploy where
  token_id : TokenId
  limit : Nat
  max : Nat
deriving DecidableEq, Repr

/-- Model of `protocol::brc20::types::Mint` payload. -/
structure Mint where
  token_id : TokenId
  amount : Nat
deriving DecidableEq, Repr

/-- Model of `protocol::brc20::types::Transfer` payload; also the value stored in the
transfer-marker table. -/
structure Transfer where
  token_id : TokenId
  amount : Nat
deriving DecidableEq, Repr

/-- First-match lookup in an association list (redb `Table::get`). -/
def alookup {K V : Type} [DecidableEq K] (k : K) : List (K × V) → Option V
  | [] => none
  | p :: rest => if p.1 = k then some p.2 else alookup k rest

/-- Drop every entry with the given key (redb `Table::remove`). -/
def aremove {K V : Type} [DecidableEq K] (k : K) (l : List (K × V)) : List (K × V) :=
  l.filter fun q => decide (q.1 ≠ k)

/-- Upsert (redb `Table::insert`): the new entry replaces any entry with the
same key; the key set stays duplicate-free. -/
def ainsert {K V : Type} [DecidableEq K] (k : K) (v : V) (l : List (K × V)) : List (K × V) :=
  (k, v) :: aremove k l

/-- The three redb tables borrowed mutably by `Tracker`. -/
structure Store where
  user_balances : List (UserBalanceKey × Balance)
  token_balances : List (TokenId × Balance)
  transfers : List (InscriptionId × Transfer)
deriving DecidableEq, Repr

def empty_store : Store :=
  { user_balances := [], token_balances := [], transfers := [] }

/-- Model of `Balance::default()` (derive(Default)). -/
def default_balance : Balance :=
  { transferable_balance := 0, total_balance := 0, max := none }

namespace Tracker

/-- Model of `Tracker::get_user_balance`: stored row or `Balance::default()`. -/
def get_user_balance (s : Store) (key : UserBalanceKey) : Balance :=
  (alookup key s.user_balances).getD default_balance

/-- Model of `Tracker::get_token_balance` before its `.unwrap()`: the raw table lookup.
The source unwraps the `Option`; the `none` case aborts the process. -/
def get_token_balance (s : Store) (t : TokenId) : Option Balance :=
  alookup t s.token_balances

/-- Model of `Tracker::token_exists`. -/
def token_exists (s : Store) (t : TokenId) : Bool :=
  (alookup t s.token_balances).isSome

/-- Model of `Tracker::standard_check`: fail with `TokenNotExists` when the token is absent. -/
def standard_check (s : Store) (t : TokenId) : Except Error Unit :=
  if token_exists s t then Except.ok () else Except.error (Error.TokenNotExists t)

/-- Model of `Tracker::update_user_balance` (insert into the user-balance table). -/
def update_user_balance (s : Store) (key : UserBalanceKey) (b : Balance) : Store :=
  { s with user_balances := ainsert key b s.user_balances }

/-- Model of `Tracker::update_token_balance` (insert into the token-balance table). -/
def update_token_balance (s : Store) (t : TokenId) (b : Balance) : Store :=
  { s with token_balances := ainsert t b s.token_balances }

/-- Model of `Tracker::deploy`: reject duplicates, else insert `Balance::new(Some(max))`.
The `limit` field is parsed but not enforced, exactly as in the source. -/
def deploy (s : Store) (_owner : String) (payload : Deploy) : Except Error Store :=
  if token_exists s payload.token_id then
    Except.error (Error.DuplicatedTokenDeployment payload.token_id)
  else
    Except.ok { s with
      token_balances := ainsert payload.token_id (Balance.new (some payload.max)) s.token_balances }

/-- Model of `Tracker::mint_inner`. The outer `Option` models the `.unwrap()` inside
`get_token_balance`: `none` is the abort of the source on a missing token row.
Both balances are mutated in memory first; the table writes come last. -/
def mint_inner (s : Store) (key : UserBalanceKey) (amount : Nat) :
    Option (Except Error Store) :=
  match (get_user_balance s key).incr_total amount with
  | Except.error e => some (Except.error e)
  | Except.ok user_balance =>
    match get_token_balance s key.token with
    | none => none
    | some tb =>
      match tb.incr_total amount with
      | Except.error e => some (Except.error e)
      | Except.ok token_balance =>
        some (Except.ok
          (update_token_balance (update_user_balance s key user_balance) key.token token_balance))

/-- Model of `Tracker::mint`: `standard_check` first, then `mint_inner` on the key
`(token_id, owner)`. -/
def mint (s : Store) (owner : String) (payload : Mint) : Option (Except Error Store) :=
  match standard_check s payload.token_id with
  | Except.error e => some (Except.error e)
  | Except.ok _ => mint_inner s { token := payload.token_id, owner := owner } payload.amount

/-- Model of `Tracker::mint` with the abort branch defaulted away. The theorem
`mint_token_lookup_never_panics` shows the default is never taken, so this
runner agrees with the source on every input. -/
def mint_run (s : Store) (owner : String) (payload : Mint) : Except Error Store :=
  (mint s owner payload).getD (Except.ok s)

/-- Model of `Tracker::transfer_inner`: debit `src` (transferable then total), credit
`dst` reading its row from the still-unmodified table, then write both rows
back in that order. -/
def transfer_inner (s : Store) (src dst : UserBalanceKey) (amount : Nat) :
    Except Error Store :=
  match (get_user_balance s src).decr_transferable amount with
  | Except.error e => Except.error e
  | Except.ok fb1 =>
    match fb1.decr_total amount with
    | Except.error e => Except.error e
    | Except.ok from_balance =>
      match (get_user_balance s dst).incr_total amount with
      | Except.error e => Except.error e
      | Except.ok to_balance =>
        Except.ok (update_user_balance (update_user_balance s src from_balance) dst to_balance)

/-- Model of `Tracker::transfer`: absent marker is success with no mutation; present
marker drives `transfer_inner` and is removed afterwards. -/
def transfer (s : Store) (src dst : String) (inscription_id : InscriptionId) :
    Except Error Store :=
  match alookup inscription_id s.transfers with
  | none => Except.ok s
  | some t =>
    match transfer_inner s { token := t.token_id, owner := src }
        { token := t.token_id, owner := dst } t.amount with
    | Except.error e => Except.error e
    | Except.ok s2 =>
      Except.ok { s2 with transfers := aremove inscription_id s2.transfers }

/-- Model of `Tracker::inscribe_transfer_inner`. -/
def inscribe_transfer_inner (s : Store) (key : UserBalanceKey) (amount : Nat) :
    Except Error Store :=
  match (get_user_balance s key).incr_transferable amount with
  | Except.error e => Except.error e
  | Except.ok user_balance => Except.ok (update_user_balance s key user_balance)

/-- Model of `Tracker::inscribe_transfer`: `standard_check`, credit the transferable
balance, then insert the marker keyed by the inscription id. -/
def inscribe_transfer (s : Store) (owner : String) (inscription_id : InscriptionId)
    (payload : Transfer) : Except Error Store :=
  match standard_check s payload.token_id with
  | Except.error e => Except.error e
  | Except.ok _ =>
    match inscribe_transfer_inner s { token := payload.token_id, owner := owner }
        payload.amount with
    | Except.error e => Except.error e
    | Except.ok s2 =>
      Except.ok { s2 with transfers := ainsert inscription_id payload s2.transfers }

end Tracker

/-- One Tracker operation, as invoked by the BRC-20 handler. -/
inductive Op where
  | deployOp (owner : String) (payload : Deploy)
  | mintOp (owner : String) (payload : Mint)
  | inscribeOp (owner : String) (inscription_id : InscriptionId) (payload : Transfer)
  | transferOp (src dst : String) (inscription_id : InscriptionId)
deriving DecidableEq, Repr

/-- Apply one operation: a typed error leaves the persisted tables unchanged
(the source mutates in-memory copies and persists only on success). -/
def step (s : Store) : Op → Store
  | Op.deployOp owner p =>
    match Tracker.deploy s owner p with
    | Except.ok s2 => s2
    | Except.error _ => s
  | Op.mintOp owner p =>
    match Tracker.mint_run s owner p with
    | Except.ok s2 => s2
    | Except.error _ => s
  | Op.inscribeOp owner i p =>
    match Tracker.inscribe_transfer s owner i p with
    | Except.ok s2 => s2
    | Except.error _ => s
  | Op.transferOp src dst i =>
    match Tracker.transfer s src dst i with
    | Except.ok s2 => s2
    | Except.error _ => s

/-- Run a sequence of operations from the empty tables. -/
def runOps (ops : List Op) : Store :=
  ops.foldl step empty_store

/-- Invariant I1: `transferable_balance ≤ total_balance`. -/
def balance_I1 (b : Balance) : Prop :=
  b.transferable_balance ≤ b.total_balance

/-- Invariant I2: if `max` is set, both balances stay at or below it. -/
def balance_I2 (b : Balance) : Prop :=
  ∀ m, b.max = some m → b.total_balance ≤ m ∧ b.transferable_balance ≤ m

/-- I1 and I2 for every balance stored in the user- and token-balance tables. -/
def store_I1_I2 (s : Store) : Prop :=
  (∀ p ∈ s.user_balances, balance_I1 p.2 ∧ balance_I2 p.2) ∧
  (∀ p ∈ s.token_balances, balance_I1 p.2 ∧ balance_I2 p.2)

/-- Strengthened inductive invariant: user rows carry no cap and satisfy I1;
token rows have zero transferable balance and respect their cap. -/
def storeInv (s : Store) : Prop :=
  (∀ p ∈ s.user_balances,
      p.2.max = none ∧ p.2.transferable_balance ≤ p.2.total_balance) ∧
  (∀ p ∈ s.token_balances,
      p.2.transferable_balance = 0 ∧ ∀ m, p.2.max = some m → p.2.total_balance ≤ m)

/-- Global token-level `total_balance` for a token, when the row exists. -/
def token_total (s : Store) (t : TokenId) : Option Nat :=
  (alookup t s.token_balances).map Balance.total_balance

/-- Sum of the stored per-user `total_balance` over all users of a token. -/
def user_total_sum (s : Store) (t : TokenId) : Nat :=
  (s.user_balances.filter fun p => decide (p.1.token = t)).foldr
    (fun p acc => p.2.total_balance + acc) 0

/-- Message constant from `protocol::brc20::error::messages`. -/
def UNKNOWN_PROTOCOL : String := "unknown protocol"

/-- Message constant from `protocol::brc20::error::messages`. -/
def INVALID_BALANCE : String := "invalid balance"

/-- Message constant from `protocol::brc20::error::messages`. -/
def INVALID_TICK_LENGTH : String := "invalid tick length"

/-- Model of `MAX_BRC20_TICK_SIZE` from `types.rs`. -/
def MAX_BRC20_TICK_SIZE : Nat := 4

/-- Accumulate decimal digits; `none` on a non-digit character. -/
def decValAux : List Char → Nat → Option Nat
  | [], acc => some acc
  | c :: rest, acc =>
    if c.isDigit then decValAux rest (acc * 10 + (c.toNat - 48)) else none

/-- Model of `u128::from_str` on a wire string: optional leading plus sign, at least one
decimal digit, value within `u128` range; every failure becomes the serde
custom message `INVALID_BALANCE` (the `parse_u128` helper of `types.rs`). -/
def parse_u128 (s : String) : Except String Nat :=
  let chars :=
    match s.data with
    | c :: rest => if c = '+' then rest else c :: rest
    | [] => []
  match chars with
  | [] => Except.error INVALID_BALANCE
  | _ :: _ =>
    match decValAux chars 0 with
    | none => Except.error INVALID_BALANCE
    | some v => if v ≤ U128_MAX then Except.ok v else Except.error INVALID_BALANCE

/-- ASCII lower-casing of one character (`str::to_lowercase` restricted to
the ASCII range, which is all the protocol comparison can distinguish). -/
def ascii_lower_char (c : Char) : Char :=
  if 65 ≤ c.toNat ∧ c.toNat ≤ 90 then Char.ofNat (c.toNat + 32) else c

/-- ASCII lower-casing of a string. -/
def ascii_lower (s : String) : String :=
  ⟨s.data.map ascii_lower_char⟩

/-- Model of `Deserialize for Protocol`: lower-case the string and accept the three
spellings; otherwise the serde custom message `UNKNOWN_PROTOCOL`. -/
def parseProtocol (s : String) : Except String Protocol :=
  if ascii_lower s = "brc20" ∨ ascii_lower s = "brc-20" ∨ ascii_lower s = "0" then
    Except.ok Protocol.BRC20
  else Except.error UNKNOWN_PROTOCOL

/-- Model of `Deserialize for TokenId`: parse the protocol, then reject a BRC-20 tick
whose byte length exceeds `MAX_BRC20_TICK_SIZE`. -/
def parseTokenId (p tick : String) : Except String TokenId :=
  match parseProtocol p with
  | Except.error e => Except.error e
  | Except.ok proto =>
    if proto = Protocol.BRC20 ∧ MAX_BRC20_TICK_SIZE < tick.utf8ByteSize then
      Except.error INVALID_TICK_LENGTH
    else Except.ok { protocol := proto, tick := tick }

/-- A numeric wire field: a missing field fails with the generic serde message. -/
def parse_amount_field : Option String → Except String Nat
  | none => Except.error "missing field"
  | some s => parse_u128 s

/-- Model of `protocol::brc20::types::InscriptionPayload`. -/
inductive InscriptionPayload where
  | Deploy (p : Deploy)
  | Mint (p : Mint)
  | Transfer (p : Transfer)
deriving DecidableEq, Repr

/-- The JSON fields of an inscription body relevant to the BRC-20 payload.
The serde plumbing from raw bytes to this field record is external to the
crate; the validation the crate itself performs (its `parse_u128` helper and
its manual `Deserialize` impls for `Protocol` and `TokenId`) is modelled in
`parsePayload`. -/
structure RawPayload where
  p : String
  op : String
  tick : String
  lim : Option String
  max : Option String
  amt : Option String
deriving DecidableEq, Repr

/-- Model of `serde_json::from_slice::<InscriptionPayload>` over the field record: the
internally tagged enum dispatches on `op`; within a variant the plain numeric
fields are read first and the flattened `TokenId` (with its tick-length check)
is deserialized last; errors carry serde custom messages. -/
def parsePayload (r : RawPayload) : Except String InscriptionPayload :=
  if r.op = "deploy" then
    match parse_amount_field r.lim with
    | Except.error e => Except.error e
    | Except.ok limit =>
      match parse_amount_field r.max with
      | Except.error e => Except.error e
      | Except.ok maxv =>
        match parseTokenId r.p r.tick with
        | Except.error e => Except.error e
        | Except.ok tid =>
          Except.ok (InscriptionPayload.Deploy { token_id := tid, limit := limit, max := maxv })
  else if r.op = "mint" then
    match parse_amount_field r.amt with
    | Except.error e => Except.error e
    | Except.ok amount =>
      match parseTokenId r.p r.tick with
      | Except.error e => Except.error e
      | Except.ok tid =>
        Except.ok (InscriptionPayload.Mint { token_id := tid, amount := amount })
  else if r.op = "transfer" then
    match parse_amount_field r.amt with
    | Except.error e => Except.error e
    | Except.ok amount =>
      match parseTokenId r.p r.tick with
      | Except.error e => Except.error e
      | Except.ok tid =>
        Except.ok (InscriptionPayload.Transfer { token_id := tid, amount := amount })
  else Except.error "unknown op variant"

/-- Model of `From<serde_json::Error> for Error`: match the error message against the
known custom messages, defaulting to `InvalidInscriptionPayload`. -/
def error_from_serde (msg : String) : Error :=
  if msg = UNKNOWN_PROTOCOL then Error.UnknownProtocol
  else if msg = INVALID_BALANCE then Error.InvalidBalance
  else if msg = INVALID_TICK_LENGTH then Error.InvalidTickLength
  else Error.InvalidInscriptionPayload

/-- Does a numeric-field parse succeed? -/
def amount_field_ok (o : Option String) : Bool :=
  match parse_amount_field o with
  | Except.ok _ => true
  | Except.error _ => false

/-- The `op` tag is a known variant and every numeric field it demands parses. -/
def numeric_fields_ok (r : RawPayload) : Bool :=
  if r.op = "deploy" then amount_field_ok r.lim && amount_field_ok r.max
  else if r.op = "mint" then amount_field_ok r.amt
  else if r.op = "transfer" then amount_field_ok r.amt
  else false

/-- Model of `protocol::error::NonBlockingError`. -/
inductive NonBlockingError where
  | BRC20 (e : Error)
  | Bug
deriving DecidableEq, Repr

/-- Model of `protocol::error::BlockingError` (error payloads dropped). -/
inductive BlockingError where
  | Storage
  | OutpointNotFound
  | InvalidAddressNetwork
deriving DecidableEq, Repr

/-- Model of `protocol::error::Error`. -/
inductive ProtocolError where
  | NonBlocking (e : NonBlockingError)
  | Blocking (e : BlockingError)
deriving DecidableEq, Repr

/-- Model of `From<BRC20Error> for protocol::error::Error`. -/
def ProtocolError.from_brc20 (e : Error) : ProtocolError :=
  ProtocolError.NonBlocking (NonBlockingError.BRC20 e)

/-- The `?` conversion applied to a tracker result inside the BRC-20 handler. -/
def liftBRC20 : Except Error Store → Except ProtocolError Store
  | Except.ok s => Except.ok s
  | Except.error e => Except.error (ProtocolError.from_brc20 e)

/-- Model of `Inscription`, reduced to the body the BRC-20 handler reads. -/
structure Inscription where
  body : Option RawPayload
deriving DecidableEq, Repr

/-- Model of `protocol::NewInscription` restricted to the fields handlers read
(`prev_txn_outpoint` and `satpoint` are never used by a handler). -/
structure NewInscription where
  owner : String
  inscription_id : InscriptionId
  inscription : Inscription
deriving DecidableEq, Repr

/-- Model of `protocol::TransferInscription` restricted to the fields handlers read;
the Rust fields `from`/`to` are named `from_addr`/`to_addr` here because
`from` is reserved in Lean. -/
structure TransferInscription where
  from_addr : String
  to_addr : String
  inscription_id : InscriptionId
deriving DecidableEq, Repr

namespace BRC20InscriptionHandler

/-- Model of `BRC20InscriptionHandler::handle_new`: a missing body is silently ignored;
a parse failure maps through `Error::from` into a non-blocking error; a parsed
payload drives the matching tracker operation. -/
def handle_new (s : Store) (ev : NewInscription) : Except ProtocolError Store :=
  match ev.inscription.body with
  | none => Except.ok s
  | some raw =>
    match parsePayload raw with
    | Except.error msg => Except.error (ProtocolError.from_brc20 (error_from_serde msg))
    | Except.ok (InscriptionPayload.Deploy p) => liftBRC20 (Tracker.deploy s ev.owner p)
    | Except.ok (InscriptionPayload.Mint p) => liftBRC20 (Tracker.mint_run s ev.owner p)
    | Except.ok (InscriptionPayload.Transfer p) =>
      liftBRC20 (Tracker.inscribe_transfer s ev.owner ev.inscription_id p)

/-- Model of `BRC20InscriptionHandler::handle_transfer`. -/
def handle_transfer (s : Store) (ev : TransferInscription) : Except ProtocolError Store :=
  liftBRC20 (Tracker.transfer s ev.from_addr ev.to_addr ev.inscription_id)

end BRC20InscriptionHandler

/-- Model of `protocol::handler::Handler`: tagged variant over the known protocols. -/
inductive Handler where
  | BRC20
deriving DecidableEq, Repr

/-- Handler dispatch for new inscriptions. -/
def Handler.handle_new : Handler → Store → NewInscription → Except ProtocolError Store
  | Handler.BRC20, s, ev => BRC20InscriptionHandler.handle_new s ev

/-- Handler dispatch for transferred inscriptions. -/
def Handler.handle_transfer : Handler → Store → TransferInscription → Except ProtocolError Store
  | Handler.BRC20, s, ev => BRC20InscriptionHandler.handle_transfer s ev

namespace InscriptionManager

/-- Model of `InscriptionManager::handle_new`: iterate the registered handlers; a
non-blocking error is logged at debug level and skipped; a blocking error is
returned immediately. -/
def handle_new (handlers : List Handler) (s : Store) (ev : NewInscription) :
    Except ProtocolError Store :=
  match handlers with
  | [] => Except.ok s
  | h :: rest =>
    match h.handle_new s ev with
    | Except.ok s2 => handle_new rest s2 ev
    | Except.error (ProtocolError.NonBlocking _) => handle_new rest s ev
    | Except.error (ProtocolError.Blocking e) => Except.error (ProtocolError.Blocking e)

/-- Model of `InscriptionManager::handle_transfer`: iterate the registered handlers,
propagating every error with the `?` operator. -/
def handle_transfer (handlers : List Handler) (s : Store) (ev : TransferInscription) :
    Except ProtocolError Store :=
  match handlers with
  | [] => Except.ok s
  | h :: rest =>
    match h.handle_transfer s ev with
    | Except.ok s2 => handle_transfer rest s2 ev
    | Except.error e => Except.error e

end InscriptionManager

/-- Concrete token for the executable scenarios below. -/
def tokA : TokenId := { protocol := Protocol.BRC20, tick := "ordi" }

def i1 : InscriptionId := { txid := "t1", index := 0 }

def i2 : InscriptionId := { txid := "t2", index := 0 }

def depA : Deploy := { token_id := tokA, limit := 1000, max := 100 }

/-- Store for the self-transfer scenario: user `a` holds 10 with 5 earmarked
under marker `i1`. -/
def c1_store : Store :=
  { user_balances := [({ token := tokA, owner := "a" },
      { transferable_balance := 5, total_balance := 10, max := none })],
    token_balances := [(tokA,
      { transferable_balance := 0, total_balance := 10, max := some 100 })],
    transfers := [(i1, { token_id := tokA, amount := 5 })] }

/-- Deploy, mint 10 to `a`, earmark 5 under `i1`, then self-transfer `i1`. -/
def cexOps : List Op :=
  [Op.deployOp "a" depA,
   Op.mintOp "a" { token_id := tokA, amount := 10 },
   Op.inscribeOp "a" i1 { token_id := tokA, amount := 5 },
   Op.transferOp "a" "a" i1]

/-- Store with a pending marker `i1` for 5 of the token but no balance at all
for the sending address `b`. -/
def c4_store : Store :=
  { user_balances := [],
    token_balances := [(tokA,
      { transferable_balance := 0, total_balance := 10, max := some 100 })],
    transfers := [(i1, { token_id := tokA, amount := 5 })] }

def c4_transfer_event : TransferInscription :=
  { from_addr := "b", to_addr := "c", inscription_id := i1 }

/-- A mint of a token that was never deployed. -/
def c4_raw_mint : RawPayload :=
  { p := "brc-20", op := "mint", tick := "zzzz", lim := none, max := none, amt := some "5" }

def c4_new_event : NewInscription :=
  { owner := "b", inscription_id := i2, inscription := { body := some c4_raw_mint } }

/-- Store for the marker-consumption scenario: `a` holds 10 with 5 earmarked. -/
def c7_store : Store :=
  { user_balances := [({ token := tokA, owner := "a" },
      { transferable_balance := 5, total_balance := 10, max := none })],
    token_balances := [(tokA,
      { transferable_balance := 0, total_balance := 10, max := some 100 })],
    transfers := [(i1, { token_id := tokA, amount := 5 })] }

/-- Result of transferring `i1` from `a` to `b` on `c7_store`. -/
def c7_after : Store :=
  { user_balances :=
      [({ token := tokA, owner := "b" },
        { transferable_balance := 0, total_balance := 5, max := none }),
       ({ token := tokA, owner := "a" },
        { transferable_balance := 0, total_balance := 5, max := none })],
    token_balances := [(tokA,
      { transferable_balance := 0, total_balance := 10, max := some 100 })],
    transfers := [] }

/-- Reachable store with the token deployed at cap 100 and 80 minted to `a`. -/
def s80 : Store :=
  runOps [Op.deployOp "a" depA, Op.mintOp "a" { token_id := tokA, amount := 80 }]

def mint30 : Mint := { token_id := tokA, amount := 30 }

/-- Deploy payload fields with an over-long tick. -/
def c8_raw : RawPayload :=
  { p := "brc-20", op := "deploy", tick := "ABCDE",
    lim := some "6250", max := some "100000", amt := none }

/-- State actually persisted by the self-transfer on `c1_store`: the stale
read of the credited row plus the overwrite of the debited row net out to an
increase of the total of the owner by the marker amount. -/
def c1_after : Store :=
  { user_balances := [({ token := tokA, owner := "a" },
      { transferable_balance := 5, total_balance := 15, max := none })],
    token_balances := [(tokA,
      { transferable_balance := 0, total_balance := 10, max := some 100 })],
    transfers := [] }

/-- Every entry of an upserted list is the new entry or an old entry. -/
theorem mem_ainsert {K V : Type} [DecidableEq K] {p : K × V} {k : K} {v : V}
    {l : List (K × V)} (h : p ∈ ainsert k v l) : p = (k, v) ∨ p ∈ l := by
  unfold ainsert aremove at h
  rcases List.mem_cons.mp h with h1 | h2
  · exact Or.inl h1
  · exact Or.inr (List.mem_filter.mp h2).1

/-- A successful lookup returns a stored entry. -/
theorem alookup_mem {K V : Type} [DecidableEq K] {k : K} {v : V} {l : List (K × V)}
    (h : alookup k l = some v) : (k, v) ∈ l := by
  induction l with
  | nil => cases h
  | cons p rest ih =>
    unfold alookup at h
    by_cases hk : p.1 = k
    · rw [if_pos hk] at h
      injection h with h2
      exact List.mem_cons.mpr (Or.inl (by cases p; cases hk; cases h2; rfl))
    · rw [if_neg hk] at h
      exact List.mem_cons.mpr (Or.inr (ih h))

/-- Removing a key makes its lookup fail. -/
theorem alookup_aremove {K V : Type} [DecidableEq K] (k : K) (l : List (K × V)) :
    alookup k (aremove k l) = none := by
  induction l with
  | nil => rfl
  | cons p rest ih =>
    unfold aremove at ih ⊢
    rw [List.filter_cons]
    by_cases hk : p.1 = k
    · simpa [hk] using ih
    · simpa [alookup, hk] using ih
/-- Characterization of a successful `incr_total`: fields of the result and
the cap bound established by `ensure_below_max`. -/
theorem incr_total_ok_facts {b b2 : Balance} {a : Nat}
    (h : b.incr_total a = Except.ok b2) :
    b2.transferable_balance = b.transferable_balance ∧
    b2.total_balance = b.total_balance + a ∧
    b2.max = b.max ∧
    (∀ m, b.max = some m → b.total_balance + a ≤ m) := by
  unfold Balance.incr_total at h
  split at h
  · cases h
  · rename_i nv hca
    have hnv : nv = b.total_balance + a := by
      unfold checked_add at hca
      by_cases hle : b.total_balance + a ≤ U128_MAX
      · rw [if_pos hle] at hca; injection hca with q; exact q.symm
      · rw [if_neg hle] at hca; cases hca
    subst hnv
    split at h
    · cases h
    · rename_i u hbm
      injection h with h2
      subst h2
      refine ⟨rfl, rfl, rfl, ?_⟩
      intro m hm
      unfold Balance.ensure_below_max at hbm
      simp only [hm] at hbm
      by_cases hlt : m < b.total_balance + a
      · rw [if_pos hlt] at hbm; cases hbm
      · exact Nat.le_of_not_lt hlt

/-- Characterization of a successful `incr_transferable`: fields of the
result, the I1 postcondition, and the cap bound. -/
theorem incr_transferable_ok_facts {b b2 : Balance} {a : Nat}
    (h : b.incr_transferable a = Except.ok b2) :
    b2.total_balance = b.total_balance ∧
    b2.transferable_balance = b.transferable_balance + a ∧
    b2.max = b.max ∧
    b2.transferable_balance ≤ b2.total_balance ∧
    (∀ m, b.max = some m → b.transferable_balance + a ≤ m) := by
  unfold Balance.incr_transferable at h
  split at h
  · cases h
  · rename_i nv hca
    have hnv : nv = b.transferable_balance + a := by
      unfold checked_add at hca
      by_cases hle : b.transferable_balance + a ≤ U128_MAX
      · rw [if_pos hle] at hca; injection hca with q; exact q.symm
      · rw [if_neg hle] at hca; cases hca
    subst hnv
    split at h
    · cases h
    · rename_i u hbm
      split at h
      · cases h
      · rename_i u2 htv
        injection h with h2
        subst h2
        refine ⟨rfl, rfl, rfl, ?_, ?_⟩
        · unfold Balance.ensure_transfer_valid at htv
          by_cases hlt : b.total_balance < b.transferable_balance + a
          · rw [if_pos hlt] at htv; cases htv
          · exact Nat.le_of_not_lt hlt
        · intro m hm
          unfold Balance.ensure_below_max at hbm
          simp only [hm] at hbm
          by_cases hlt : m < b.transferable_balance + a
          · rw [if_pos hlt] at hbm; cases hbm
          · exact Nat.le_of_not_lt hlt

/-- Characterization of a successful `decr_transferable`. -/
theorem decr_transferable_ok_facts {b b2 : Balance} {a : Nat}
    (h : b.decr_transferable a = Except.ok b2) :
    b2.total_balance = b.total_balance ∧
    b2.max = b.max ∧
    a ≤ b.transferable_balance ∧
    b2.transferable_balance = b.transferable_balance - a ∧
    a ≤ b.total_balance ∧
    b2.transferable_balance ≤ b2.total_balance := by
  unfold Balance.decr_transferable at h
  split at h
  · cases h
  · rename_i u0 hct
    have hat : a ≤ b.total_balance := by
      unfold Balance.ensure_can_transfer at hct
      by_cases hlt : b.total_balance < a
      · rw [if_pos hlt] at hct; cases hct
      · exact Nat.le_of_not_lt hlt
    split at h
    · cases h
    · rename_i nv hcs
      have hsub : a ≤ b.transferable_balance ∧ nv = b.transferable_balance - a := by
        unfold checked_sub at hcs
        by_cases hle : a ≤ b.transferable_balance
        · rw [if_pos hle] at hcs; injection hcs with q; exact ⟨hle, q.symm⟩
        · rw [if_neg hle] at hcs; cases hcs
      rcases hsub with ⟨hle1, hnv⟩
      subst hnv
      split at h
      · cases h
      · rename_i u2 htv
        injection h with h2
        subst h2
        refine ⟨rfl, rfl, hle1, rfl, hat, ?_⟩
        unfold Balance.ensure_transfer_valid at htv
        by_cases hlt : b.total_balance < b.transferable_balance - a
        · rw [if_pos hlt] at htv; cases htv
        · exact Nat.le_of_not_lt hlt

/-- Characterization of a successful `decr_total`. -/
theorem decr_total_ok_facts {b b2 : Balance} {a : Nat}
    (h : b.decr_total a = Except.ok b2) :
    b2.transferable_balance = b.transferable_balance ∧
    b2.max = b.max ∧
    a ≤ b.total_balance ∧
    b2.total_balance = b.total_balance - a := by
  unfold Balance.decr_total at h
  split at h
  · cases h
  · rename_i nv hcs
    have hsub : a ≤ b.total_balance ∧ nv = b.total_balance - a := by
      unfold checked_sub at hcs
      by_cases hle : a ≤ b.total_balance
      · rw [if_pos hle] at hcs; injection hcs with q; exact ⟨hle, q.symm⟩
      · rw [if_neg hle] at hcs; cases hcs
    rcases hsub with ⟨hle1, hnv⟩
    subst hnv
    injection h with h2
    subst h2
    exact ⟨rfl, rfl, hle1, rfl⟩

/-- A user balance read under the invariant has no cap and satisfies I1. -/
theorem get_user_balance_inv {s : Store} (key : UserBalanceKey) (h : storeInv s) :
    (Tracker.get_user_balance s key).max = none ∧
    (Tracker.get_user_balance s key).transferable_balance ≤
      (Tracker.get_user_balance s key).total_balance := by
  unfold Tracker.get_user_balance
  cases hl : alookup key s.user_balances with
  | none => exact ⟨rfl, Nat.le_refl 0⟩
  | some b => exact h.1 (key, b) (alookup_mem hl)

/-- A token balance read under the invariant has zero transferable balance and
respects its cap. -/
theorem get_token_balance_inv {s : Store} {t : TokenId} {b : Balance} (h : storeInv s)
    (hl : Tracker.get_token_balance s t = some b) :
    b.transferable_balance = 0 ∧ ∀ m, b.max = some m → b.total_balance ≤ m :=
  h.2 (t, b) (alookup_mem hl)

/-- Writing a capless I1-respecting user row preserves the invariant. -/
theorem storeInv_update_user {s : Store} {key : UserBalanceKey} {b : Balance}
    (h : storeInv s) (hb : b.max = none ∧ b.transferable_balance ≤ b.total_balance) :
    storeInv (Tracker.update_user_balance s key b) := by
  constructor
  · intro p hp
    rcases mem_ainsert hp with h1 | h2
    · rw [h1]; exact hb
    · exact h.1 p h2
  · intro p hp
    exact h.2 p hp

/-- Writing a token row with zero transferable balance that respects its cap
preserves the invariant. -/
theorem storeInv_update_token {s : Store} {t : TokenId} {b : Balance}
    (h : storeInv s)
    (hb : b.transferable_balance = 0 ∧ ∀ m, b.max = some m → b.total_balance ≤ m) :
    storeInv (Tracker.update_token_balance s t b) := by
  constructor
  · intro p hp
    exact h.1 p hp
  · intro p hp
    rcases mem_ainsert hp with h1 | h2
    · rw [h1]; exact hb
    · exact h.2 p h2

/-- Replacing the marker table does not affect the balance invariant. -/
theorem storeInv_set_transfers {s : Store} (l : List (InscriptionId × Transfer))
    (h : storeInv s) : storeInv { s with transfers := l } :=
  ⟨h.1, h.2⟩

/-- A successful deploy preserves the invariant. -/
theorem storeInv_deploy {s s2 : Store} {owner : String} {payload : Deploy}
    (hinv : storeInv s) (h : Tracker.deploy s owner payload = Except.ok s2) :
    storeInv s2 := by
  unfold Tracker.deploy at h
  split at h
  · cases h
  · injection h with h2
    subst h2
    constructor
    · intro p hp
      exact hinv.1 p hp
    · intro p hp
      rcases mem_ainsert hp with h1 | h2
      · rw [h1]
        exact ⟨rfl, fun m hm => Nat.zero_le m⟩
      · exact hinv.2 p h2

/-- A successful mint preserves the invariant. -/
theorem storeInv_mint {s s2 : Store} {owner : String} {payload : Mint}
    (hinv : storeInv s) (h : Tracker.mint s owner payload = some (Except.ok s2)) :
    storeInv s2 := by
  unfold Tracker.mint at h
  split at h
  · injection h with h2; cases h2
  · unfold Tracker.mint_inner at h
    split at h
    · injection h with h2; cases h2
    · rename_i ub hub
      split at h
      · cases h
      · rename_i tb htb
        split at h
        · injection h with h2; cases h2
        · rename_i tb2 htb2
          injection h with h2
          injection h2 with h3
          subst h3
          rcases incr_total_ok_facts hub with ⟨hu1, hu2, hu3, _⟩
          rcases incr_total_ok_facts htb2 with ⟨ht1, ht2, ht3, ht4⟩
          rcases get_user_balance_inv { token := payload.token_id, owner := owner } hinv
            with ⟨hg1, hg2⟩
          rcases get_token_balance_inv hinv htb with ⟨hz1, hz2⟩
          apply storeInv_update_token
          · apply storeInv_update_user hinv
            constructor
            · rw [hu3]; exact hg1
            · rw [hu1, hu2]
              exact Nat.le_trans hg2 (Nat.le_add_right _ _)
          · constructor
            · rw [ht1]; exact hz1
            · intro m hm
              rw [ht3] at hm
              rw [ht2]
              exact ht4 m hm

/-- A successful inscribe-transfer preserves the invariant. -/
theorem storeInv_inscribe {s s2 : Store} {owner : String} {i : InscriptionId}
    {payload : Transfer} (hinv : storeInv s)
    (h : Tracker.inscribe_transfer s owner i payload = Except.ok s2) :
    storeInv s2 := by
  unfold Tracker.inscribe_transfer at h
  split at h
  · cases h
  · split at h
    · cases h
    · rename_i s3 hinner
      injection h with h2
      subst h2
      apply storeInv_set_transfers
      unfold Tracker.inscribe_transfer_inner at hinner
      split at hinner
      · cases hinner
      · rename_i ub hub
        injection hinner with h3
        subst h3
        rcases incr_transferable_ok_facts hub with ⟨hu1, _, hu3, hu4, _⟩
        rcases get_user_balance_inv { token := payload.token_id, owner := owner } hinv
          with ⟨hg1, _⟩
        apply storeInv_update_user hinv
        exact ⟨by rw [hu3]; exact hg1, hu4⟩

/-- A successful transfer preserves the invariant (including the aliased
self-transfer case, where the second row write overwrites the first). -/
theorem storeInv_transfer {s s2 : Store} {src dst : String} {i : InscriptionId}
    (hinv : storeInv s) (h : Tracker.transfer s src dst i = Except.ok s2) :
    storeInv s2 := by
  unfold Tracker.transfer at h
  split at h
  · injection h with h2
    subst h2
    exact hinv
  · rename_i t hma
    split at h
    · cases h
    · rename_i s3 hti
      injection h with h2
      subst h2
      apply storeInv_set_transfers
      unfold Tracker.transfer_inner at hti
      split at hti
      · cases hti
      · rename_i fb1 hfb1
        split at hti
        · cases hti
        · rename_i fb2 hfb2
          split at hti
          · cases hti
          · rename_i tb htb
            injection hti with h3
            subst h3
            rcases decr_transferable_ok_facts hfb1 with ⟨hf1, hf2, hf3, hf4, hf5, hf6⟩
            rcases decr_total_ok_facts hfb2 with ⟨hd1, hd2, hd3, hd4⟩
            rcases incr_total_ok_facts htb with ⟨hb1, hb2, hb3, _⟩
            rcases get_user_balance_inv { token := t.token_id, owner := src } hinv
              with ⟨hsrc1, hsrc2⟩
            rcases get_user_balance_inv { token := t.token_id, owner := dst } hinv
              with ⟨hdst1, hdst2⟩
            apply storeInv_update_user
            · apply storeInv_update_user hinv
              constructor
              · rw [hd2, hf2]; exact hsrc1
              · rw [hd1, hf4, hd4, hf1]
                exact Nat.sub_le_sub_right hsrc2 t.amount
            · constructor
              · rw [hb3]; exact hdst1
              · rw [hb1, hb2]
                exact Nat.le_trans hdst2 (Nat.le_add_right _ _)

/-- Applying `step` preserves the invariant: failed operations leave the store intact,
successful ones go through the per-operation lemmas. -/
theorem storeInv_step (s : Store) (op : Op) (h : storeInv s) : storeInv (step s op) := by
  cases op with
  | deployOp owner p =>
    simp only [step]
    split
    · rename_i s2 hd
      exact storeInv_deploy h hd
    · exact h
  | mintOp owner p =>
    simp only [step]
    split
    · rename_i s2 hm
      unfold Tracker.mint_run at hm
      cases hmm : Tracker.mint s owner p with
      | none => rw [hmm] at hm; injection hm with h2; subst h2; exact h
      | some r =>
        rw [hmm] at hm
        simp only [Option.getD] at hm
        subst hm
        exact storeInv_mint h hmm
    · exact h
  | inscribeOp owner i p =>
    simp only [step]
    split
    · rename_i s2 hi
      exact storeInv_inscribe h hi
    · exact h
  | transferOp src dst i =>
    simp only [step]
    split
    · rename_i s2 ht
      exact storeInv_transfer h ht
    · exact h

/-- The invariant holds in every store reachable from the empty tables. -/
theorem storeInv_runOps (ops : List Op) : storeInv (runOps ops) := by
  unfold runOps
  have base : storeInv empty_store := by
    constructor
    · intro p hp; cases hp
    · intro p hp; cases hp
  have hall : ∀ (l : List Op) (s : Store), storeInv s → storeInv (List.foldl step s l) := by
    intro l
    induction l with
    | nil => intro s hs; exact hs
    | cons op rest ih => intro s hs; exact ih (step s op) (storeInv_step s op hs)
  exact hall ops empty_store base

/-- Claim C3: for every sequence of Tracker operations applied from the empty
tables, after each operation every balance stored in the user-balance and
token-balance tables satisfies I1 (`transferable_balance ≤ total_balance`)
and I2 (if `max` is set, both balances are at most `max`). -/
theorem balances_satisfy_I1_I2 (ops : List Op) : store_I1_I2 (runOps ops) := by
  have h := storeInv_runOps ops
  unfold storeInv at h
  unfold store_I1_I2 balance_I1 balance_I2
  constructor
  · intro p hp
    rcases h.1 p hp with ⟨h1, h2⟩
    refine ⟨h2, ?_⟩
    intro m hm
    rw [h1] at hm
    cases hm
  · intro p hp
    rcases h.2 p hp with ⟨h1, h2⟩
    constructor
    · rw [h1]
      exact Nat.zero_le _
    · intro m hm
      exact ⟨h2 m hm, by rw [h1]; exact Nat.zero_le m⟩

/-- Claim C5: `decr_transferable` fails with `TransferExceedingTotalBalance`
exactly when the amount exceeds `total_balance`, whatever the value of
`transferable_balance`; the check is the first step of the function, before
any mutation. -/
theorem decr_transferable_exceeding_total_iff (b : Balance) (a : Nat) :
    b.decr_transferable a = Except.error Error.TransferExceedingTotalBalance ↔
      b.total_balance < a := by
  constructor
  · intro h
    by_contra hlt
    unfold Balance.decr_transferable at h
    have hct : b.ensure_can_transfer a = Except.ok () := by
      unfold Balance.ensure_can_transfer
      rw [if_neg hlt]
    simp only [hct] at h
    split at h
    · simp at h
    · rename_i nv hcs
      split at h
      · rename_i e htv
        injection h with h2
        subst h2
        unfold Balance.ensure_transfer_valid at htv
        split at htv
        · simp at htv
        · cases htv
      · simp at h
  · intro hlt
    have hct : b.ensure_can_transfer a =
        Except.error Error.TransferExceedingTotalBalance := by
      unfold Balance.ensure_can_transfer
      rw [if_pos hlt]
    simp only [Balance.decr_transferable, hct]

/-- Claim C9: whenever `standard_check` has succeeded for the minted token,
the token-balance lookup inside `mint_inner` finds a row, so the `.unwrap()`
of the source (the `none` outcome of the model) is unreachable: `mint` never
returns `none`. (`inscribe_transfer` never calls `get_token_balance` at all,
as its definition above shows.) -/
theorem mint_token_lookup_never_panics (s : Store) (owner : String) (payload : Mint) :
    (Tracker.mint s owner payload).isSome = true := by
  cases hm : Tracker.mint s owner payload with
  | some r => rfl
  | none =>
    exfalso
    unfold Tracker.mint at hm
    split at hm
    · cases hm
    · rename_i u hsc
      unfold Tracker.mint_inner at hm
      split at hm
      · cases hm
      · rename_i ub hub
        split at hm
        · rename_i hgt
          have hex : Tracker.token_exists s payload.token_id = true := by
            unfold Tracker.standard_check at hsc
            by_cases hb : Tracker.token_exists s payload.token_id
            · exact hb
            · rw [if_neg hb] at hsc; cases hsc
          unfold Tracker.token_exists at hex
          unfold Tracker.get_token_balance at hgt
          have hgt2 : alookup payload.token_id s.token_balances = none := hgt
          rw [hgt2] at hex
          cases hex
        · rename_i tb hgt
          split at hm
          · cases hm
          · cases hm

/-- Claim C10: `decr_total` succeeds exactly when the amount is at most
`total_balance`, subtracting from `total_balance` and leaving
`transferable_balance` and `max` untouched (no I1 recheck), and fails with
`BalanceUnderflow` otherwise. -/
theorem decr_total_characterization (b : Balance) (a : Nat) :
    (a ≤ b.total_balance →
      b.decr_total a = Except.ok { b with total_balance := b.total_balance - a }) ∧
    (b.total_balance < a → b.decr_total a = Except.error Error.BalanceUnderflow) := by
  constructor
  · intro hle
    unfold Balance.decr_total checked_sub
    rw [if_pos hle]
  · intro hlt
    unfold Balance.decr_total checked_sub
    rw [if_neg (Nat.not_le_of_lt hlt)]

/-- Witness for C10 at a concrete balance with more transferable than the
remaining total: `decr_total 6` on total 10 / transferable 9 succeeds and
leaves transferable 9 above total 4; `decr_total 11` underflows. -/
theorem decr_total_characterization_witness :
    Balance.decr_total { transferable_balance := 9, total_balance := 10, max := none } 6 =
      Except.ok { transferable_balance := 9, total_balance := 4, max := none } ∧
    Balance.decr_total { transferable_balance := 9, total_balance := 10, max := none } 11 =
      Except.error Error.BalanceUnderflow :=
  ⟨(decr_total_characterization
      { transferable_balance := 9, total_balance := 10, max := none } 6).1 (by decide),
   (decr_total_characterization
      { transferable_balance := 9, total_balance := 10, max := none } 11).2 (by decide)⟩

/-- Claim C7: a transfer with no stored marker for the inscription id returns
success and leaves the store untouched; a transfer that succeeds leaves no
marker for that id behind, so replaying the same transfer event is a no-op on
all tables. -/
theorem transfer_marker_consumed_and_replay_noop (s s2 : Store) (src dst : String)
    (i : InscriptionId) :
    (alookup i s.transfers = none → Tracker.transfer s src dst i = Except.ok s) ∧
    (Tracker.transfer s src dst i = Except.ok s2 →
      alookup i s2.transfers = none ∧
      ∀ src2 dst2 : String, Tracker.transfer s2 src2 dst2 i = Except.ok s2) := by
  have habs : ∀ (s0 : Store), alookup i s0.transfers = none →
      ∀ a b : String, Tracker.transfer s0 a b i = Except.ok s0 := by
    intro s0 h0 a b
    unfold Tracker.transfer
    simp only [h0]
  constructor
  · intro h0
    exact habs s h0 src dst
  · intro h
    unfold Tracker.transfer at h
    split at h
    · rename_i hnone
      injection h with h2
      subst h2
      exact ⟨hnone, fun a b => habs _ hnone a b⟩
    · rename_i t hma
      split at h
      · cases h
      · rename_i s3 hti
        injection h with h2
        subst h2
        have hrm : alookup i
            ({ s3 with transfers := aremove i s3.transfers } : Store).transfers = none :=
          alookup_aremove i s3.transfers
        exact ⟨hrm, fun a b => habs _ hrm a b⟩

/-- Witness for C7: transferring marker `i1` on the concrete store consumes
the marker, and replaying the same event afterwards is a no-op. -/
theorem transfer_marker_consumed_witness :
    Tracker.transfer c7_store "a" "b" i1 = Except.ok c7_after ∧
    alookup i1 c7_after.transfers = none ∧
    Tracker.transfer c7_after "a" "b" i1 = Except.ok c7_after := by
  have h1 : Tracker.transfer c7_store "a" "b" i1 = Except.ok c7_after := rfl
  have h2 := (transfer_marker_consumed_and_replay_noop c7_store c7_after "a" "b" i1).2 h1
  exact ⟨h1, h2.1, h2.2 "a" "b"⟩

/-- Claim C1 fails on the code: the self-transfer of marker `i1` (amount 5,
owner total 10, transferable 5) succeeds but persists total 15 and
transferable 5, because `transfer_inner` reads the credited row before the
debited row is written back and the credited write overwrites the debited
one. The claim predicts total 10 and transferable 0. -/
theorem self_transfer_inflates_total :
    Tracker.transfer c1_store "a" "a" i1 = Except.ok c1_after ∧
    Tracker.get_user_balance c1_after { token := tokA, owner := "a" } =
      { transferable_balance := 5, total_balance := 15, max := none } :=
  ⟨rfl, rfl⟩

/-- Claim C2 fails on the code: after deploy, mint 10 to `a`, inscribe 5 and
self-transfer, the global total for the token is 10 while the sum of stored
per-user totals is 15 — the accounting identity I4 is broken by the
self-transfer write aliasing. -/
theorem token_total_ne_user_sum_after_self_transfer :
    token_total (runOps cexOps) tokA = some 10 ∧
    user_total_sum (runOps cexOps) tokA = 15 :=
  ⟨rfl, rfl⟩

/-- Claim C4 fails on the code: the transfer dispatch of the manager propagates a
non-blocking handler error (here `TransferExceedingTotalBalance` from a
marker whose sender has no balance) instead of swallowing it, while the
new-inscription dispatch on the same store does swallow a non-blocking error
(a mint of an undeployed token) and returns success with the store intact. -/
theorem nonblocking_error_escapes_transfer_dispatch :
    InscriptionManager.handle_transfer [Handler.BRC20] c4_store c4_transfer_event =
      Except.error (ProtocolError.NonBlocking
        (NonBlockingError.BRC20 Error.TransferExceedingTotalBalance)) ∧
    InscriptionManager.handle_new [Handler.BRC20] c4_store c4_new_event =
      Except.ok c4_store :=
  ⟨rfl, rfl⟩

/-- Claim C6: a mint whose amount would push the stored global token total
past the deployed cap fails with `ExceedsMaxBalance` (the failure happens
before any table write, so `step` leaves every persisted table unchanged).
The side conditions say only that the token row exists with a cap below the
would-be total and that neither 128-bit addition overflows. -/
theorem mint_past_cap_fails_exceeds_max (s : Store) (owner : String) (payload : Mint)
    (tb : Balance) (m : Nat)
    (htb : Tracker.get_token_balance s payload.token_id = some tb)
    (hmax : tb.max = some m)
    (hover : m < tb.total_balance + payload.amount)
    (hfit : tb.total_balance + payload.amount ≤ U128_MAX)
    (hufit : (Tracker.get_user_balance s
        { token := payload.token_id, owner := owner }).total_balance
        + payload.amount ≤ U128_MAX)
    (humax : (Tracker.get_user_balance s
        { token := payload.token_id, owner := owner }).max = none) :
    Tracker.mint s owner payload = some (Except.error Error.ExceedsMaxBalance) ∧
    step s (Op.mintOp owner payload) = s := by
  have hex : Tracker.token_exists s payload.token_id = true := by
    unfold Tracker.token_exists
    unfold Tracker.get_token_balance at htb
    rw [htb]
    rfl
  have hsc : Tracker.standard_check s payload.token_id = Except.ok () := by
    unfold Tracker.standard_check
    simp only [hex, if_true]
  have hub : (Tracker.get_user_balance s
      { token := payload.token_id, owner := owner }).incr_total payload.amount =
      Except.ok { Tracker.get_user_balance s { token := payload.token_id, owner := owner }
        with total_balance := (Tracker.get_user_balance s
          { token := payload.token_id, owner := owner }).total_balance + payload.amount } := by
    unfold Balance.incr_total checked_add
    rw [if_pos hufit]
    unfold Balance.ensure_below_max
    simp only [humax]
  have htb2 : tb.incr_total payload.amount = Except.error Error.ExceedsMaxBalance := by
    unfold Balance.incr_total checked_add
    rw [if_pos hfit]
    unfold Balance.ensure_below_max
    simp only [hmax, if_pos hover]
  have hmint : Tracker.mint s owner payload = some (Except.error Error.ExceedsMaxBalance) := by
    unfold Tracker.mint
    simp only [hsc]
    unfold Tracker.mint_inner
    simp only [hub]
    have htbk : Tracker.get_token_balance s
        ({ token := payload.token_id, owner := owner } : UserBalanceKey).token = some tb := htb
    simp only [htbk, htb2]
  refine ⟨hmint, ?_⟩
  simp only [step, Tracker.mint_run, hmint, Option.getD]

/-- Witness for C6, scenario S3: token deployed with cap 100 and 80 already
minted to `a`; minting 30 to `b` fails with `ExceedsMaxBalance` and the store
is exactly as before (no row for `b`, token total still 80). -/
theorem mint_past_cap_witness :
    Tracker.get_token_balance s80 mint30.token_id =
      some { transferable_balance := 0, total_balance := 80, max := some 100 } ∧
    Tracker.mint s80 "b" mint30 = some (Except.error Error.ExceedsMaxBalance) ∧
    step s80 (Op.mintOp "b" mint30) = s80 := by
  have h := mint_past_cap_fails_exceeds_max s80 "b" mint30
    { transferable_balance := 0, total_balance := 80, max := some 100 } 100
    (by rfl) (by rfl) (by decide) (by decide) (by decide) (by rfl)
  exact ⟨rfl, h.1, h.2⟩

/-- Claim C8: a payload whose protocol parses as BRC-20, whose `op` tag is a
known variant with well-formed numeric fields, and whose tick is longer than
`MAX_BRC20_TICK_SIZE` bytes fails to parse with exactly the
`INVALID_TICK_LENGTH` message, which `From<serde_json::Error>` maps to
`Error::InvalidTickLength`; the handler turns this into a non-blocking error
before touching any table, so dispatch returns with the store unchanged
(`a deploy of tick "ABCDE" creates no token`). -/
theorem long_tick_fails_invalid_tick_length (r : RawPayload) (s : Store)
    (owner : String) (iid : InscriptionId)
    (hp : parseProtocol r.p = Except.ok Protocol.BRC20)
    (hnum : numeric_fields_ok r = true)
    (ht : MAX_BRC20_TICK_SIZE < r.tick.utf8ByteSize) :
    parsePayload r = Except.error INVALID_TICK_LENGTH ∧
    error_from_serde INVALID_TICK_LENGTH = Error.InvalidTickLength ∧
    BRC20InscriptionHandler.handle_new s
        { owner := owner, inscription_id := iid, inscription := { body := some r } } =
      Except.error (ProtocolError.NonBlocking
        (NonBlockingError.BRC20 Error.InvalidTickLength)) ∧
    InscriptionManager.handle_new [Handler.BRC20] s
        { owner := owner, inscription_id := iid, inscription := { body := some r } } =
      Except.ok s := by
  have htid : parseTokenId r.p r.tick = Except.error INVALID_TICK_LENGTH := by
    unfold parseTokenId
    simp [hp, ht]
  have hmsg : error_from_serde INVALID_TICK_LENGTH = Error.InvalidTickLength := by decide
  have hparse : parsePayload r = Except.error INVALID_TICK_LENGTH := by
    unfold numeric_fields_ok at hnum
    unfold parsePayload
    by_cases hop1 : r.op = "deploy"
    · rw [if_pos hop1] at hnum ⊢
      rw [Bool.and_eq_true] at hnum
      rcases hnum with ⟨hl, hm⟩
      cases hlim : parse_amount_field r.lim with
      | error e =>
        unfold amount_field_ok at hl
        simp only [hlim] at hl
        exact Bool.noConfusion hl
      | ok v1 =>
        simp only [hlim]
        cases hmaxf : parse_amount_field r.max with
        | error e =>
          unfold amount_field_ok at hm
          simp only [hmaxf] at hm
          exact Bool.noConfusion hm
        | ok v2 => simp only [hmaxf, htid]
    · rw [if_neg hop1] at hnum ⊢
      by_cases hop2 : r.op = "mint"
      · rw [if_pos hop2] at hnum ⊢
        cases hamt : parse_amount_field r.amt with
        | error e =>
          unfold amount_field_ok at hnum
          simp only [hamt] at hnum
          exact Bool.noConfusion hnum
        | ok v1 => simp only [hamt, htid]
      · rw [if_neg hop2] at hnum ⊢
        by_cases hop3 : r.op = "transfer"
        · rw [if_pos hop3] at hnum ⊢
          cases hamt : parse_amount_field r.amt with
          | error e =>
            unfold amount_field_ok at hnum
            simp only [hamt] at hnum
            exact Bool.noConfusion hnum
          | ok v1 => simp only [hamt, htid]
        · rw [if_neg hop3] at hnum
          cases hnum
  have hhn : BRC20InscriptionHandler.handle_new s
      { owner := owner, inscription_id := iid, inscription := { body := some r } } =
      Except.error (ProtocolError.NonBlocking
        (NonBlockingError.BRC20 Error.InvalidTickLength)) := by
    unfold BRC20InscriptionHandler.handle_new
    simp only [hparse, hmsg]
    rfl
  refine ⟨hparse, hmsg, hhn, ?_⟩
  unfold InscriptionManager.handle_new
  simp only [Handler.handle_new, hhn]
  rfl

/-- Witness for C8, scenario S6: a deploy payload with tick `"ABCDE"` and
well-formed numeric fields fails with the tick-length message, and the
new-inscription dispatch leaves the empty store untouched (token not
created). -/
theorem long_tick_witness :
    parseProtocol c8_raw.p = Except.ok Protocol.BRC20 ∧
    numeric_fields_ok c8_raw = true ∧
    MAX_BRC20_TICK_SIZE < c8_raw.tick.utf8ByteSize ∧
    parsePayload c8_raw = Except.error INVALID_TICK_LENGTH ∧
    InscriptionManager.handle_new [Handler.BRC20] empty_store
        { owner := "a", inscription_id := i1, inscription := { body := some c8_raw } } =
      Except.ok empty_store := by
  have h := long_tick_fails_invalid_tick_length c8_raw empty_store "a" i1
    (by rfl) (by rfl) (by decide)
  exact ⟨rfl, rfl, by decide, h.1, h.2.2.2⟩
